import Mathlib

/-!
Verification of the mock-code scanner and AI fix pipeline implemented in
`.github/scripts/ai-powered-fix.py`.

The Python script is shallowly embedded below:
* regular expressions are embedded as a small derivative-based matcher
  (`Regex`, `rmatch`), with `search` modelling `re.search` (match anywhere)
  and `pymatch` modelling `re.match` (match at the start of the string);
* the filesystem is a partial map from path to raw file content
  (`FS := String → Option String`); Python `readlines` and `str.split`
  are modelled by `pyReadlines` and `String.splitOn`;
* exceptions are modelled with `Option`/`Except`: `none`/`.error` marks
  the point where the Python code would raise;
* the process environment is a partial map `String → Option String` and
  the overall run result is a `RunOutcome` (exit 1, crash with an
  uncaught exception, or normal completion with the two reports).
-/

namespace AIFix

/-! ### Character classes used by the Python regular expressions -/

/-- Python `\s` (ASCII whitespace as used by the scanned files). -/
def pyIsSpace (c : Char) : Bool :=
  c == ' ' || c == '\t' || c == '\n' || c == '\r' || c == '\x0b' || c == '\x0c'

/-- Python `\w`: word characters. -/
def pyIsWord (c : Char) : Bool :=
  c.isAlphanum || c == '_'

/-! ### A derivative-based regular-expression matcher -/

/-- Regular expressions over characters; `cls` is a character class. -/
inductive Regex where
  | emp : Regex
  | eps : Regex
  | cls : (Char → Bool) → Regex
  | cat : Regex → Regex → Regex
  | alt : Regex → Regex → Regex
  | star : Regex → Regex

/-- Does the regex accept the empty string? -/
def nullable : Regex → Bool
  | .emp => false
  | .eps => true
  | .cls _ => false
  | .cat r s => nullable r && nullable s
  | .alt r s => nullable r || nullable s
  | .star _ => true

/-- Smart concatenation, keeping derivative terms small. -/
def rcat (r s : Regex) : Regex :=
  match r, s with
  | .emp, _ => .emp
  | _, .emp => .emp
  | .eps, s => s
  | r, .eps => r
  | r, s => .cat r s

/-- Smart alternation, keeping derivative terms small. -/
def ralt (r s : Regex) : Regex :=
  match r, s with
  | .emp, s => s
  | r, .emp => r
  | r, s => .alt r s

/-- Brzozowski derivative of a regex with respect to a character. -/
def deriv (r : Regex) (c : Char) : Regex :=
  match r with
  | .emp => .emp
  | .eps => .emp
  | .cls f => if f c then .eps else .emp
  | .cat r s => ralt (rcat (deriv r c) s) (if nullable r then deriv s c else .emp)
  | .alt r s => ralt (deriv r c) (deriv s c)
  | .star r => rcat (deriv r c) (.star r)

/-- Does the regex accept exactly this character list? -/
def rmatch (r : Regex) (cs : List Char) : Bool :=
  nullable (cs.foldl deriv r)

/-- Literal string as a regex. -/
def lit (s : String) : Regex :=
  s.toList.foldr (fun c acc => .cat (.cls (fun d => d == c)) acc) .eps

/-- `r+` (one or more repetitions). -/
def rplus (r : Regex) : Regex := .cat r (.star r)

/-- `\s` as a regex. -/
def wsR : Regex := .cls pyIsSpace

/-- `\w` as a regex. -/
def wordR : Regex := .cls pyIsWord

/-- Python `.`: any character except a newline. -/
def dotR : Regex := .cls (fun c => !(c == '\n'))

/-- Any character at all (used for the unanchored part of a match). -/
def anyR : Regex := .cls (fun _ => true)

/-- Python `re.search(pat, s)`: the pattern matches somewhere in `s`. -/
def search (r : Regex) (s : String) : Bool :=
  rmatch (.cat (.star anyR) (.cat r (.star anyR))) s.toList

/-- Python `re.match(pat, s)`: the pattern matches at the start of `s`. -/
def pymatch (r : Regex) (s : String) : Bool :=
  rmatch (.cat r (.star anyR)) s.toList

/-! ### Python string helpers -/

/-- Accumulator loop for `pyReadlines`. -/
def readlinesAux : List Char → List Char → List String
  | [], [] => []
  | [], acc => [String.mk acc.reverse]
  | c :: rest, acc =>
      if c == '\n' then String.mk (c :: acc).reverse :: readlinesAux rest []
      else readlinesAux rest (c :: acc)

/-- Python `file.readlines()`: split into lines, each keeping its
trailing newline; a final fragment without a newline is kept as well. -/
def pyReadlines (s : String) : List String :=
  readlinesAux s.toList []

/-- Python `str.strip()`: remove leading and trailing whitespace. -/
def pyStrip (s : String) : String :=
  String.mk (((s.toList.dropWhile pyIsSpace).reverse.dropWhile pyIsSpace).reverse)

/-- Does the second list start with the first? -/
def startsWithL : List Char → List Char → Bool
  | [], _ => true
  | _ :: _, [] => false
  | c :: cs, d :: ds => c == d && startsWithL cs ds

/-- Does the second list contain the first as a contiguous sublist? -/
def containsL (pat : List Char) : List Char → Bool
  | [] => pat.isEmpty
  | c :: rest => startsWithL pat (c :: rest) || containsL pat rest

/-- Python `sub in s`: substring containment. -/
def containsStr (s pat : String) : Bool :=
  containsL pat.toList s.toList

/-- Python `s.endswith(pat)`. -/
def pyEndsWith (s pat : String) : Bool :=
  startsWithL pat.toList.reverse s.toList.reverse

/-- Accumulator loop for `pySplitNL`. -/
def splitNLAux : List Char → List Char → List String
  | [], acc => [String.mk acc.reverse]
  | c :: rest, acc =>
      if c == '\n' then String.mk acc.reverse :: splitNLAux rest []
      else splitNLAux rest (c :: acc)

/-- Python `content.split('\n')`. -/
def pySplitNL (s : String) : List String :=
  splitNLAux s.toList []

/-! ### Data model -/

/-- A detected violation record, as appended by `find_violations`. -/
structure Violation where
  file : String
  line : Nat
  type : String
  content : String
  deriving Repr, DecidableEq

/-- The context record returned by `analyze_code_context`. -/
structure Context where
  file : String
  line : Nat
  context : String
  function : String
  violation_line : String
  deriving Repr, DecidableEq

/-- A recorded fix, as appended by `apply_fix` to `self.fixes`. -/
structure Fix where
  file : String
  line : Nat
  original : String
  fixed : String
  deriving Repr, DecidableEq

/-- The machine-readable report written to `ai_fix_report.json`. -/
structure Report where
  violations_found : Nat
  fixes_applied : Nat
  violations : List Violation
  fixes : List Fix
  deriving Repr, DecidableEq

/-- The filesystem: raw file content by path; `none` = unreadable/absent. -/
def FS : Type := String → Option String

/-- One file produced by the `os.walk` traversal in `find_violations`:
the directory it was found in, its file name, and its raw content
(`none` when opening or reading the file raises). -/
structure Entry where
  root : String
  fname : String
  content : Option String
  deriving Repr, DecidableEq

/-! ### The scanner (`find_violations`) -/

/-- The `patterns` list of `find_violations`, in source order. -/
def patterns : List (Regex × String) :=
  [ (.cat (lit "return") (.cat (rplus wsR) (.cat (lit "0.5f")
      (.cat (.star wsR) (.cat (lit ";") (.cat (.star dotR) (lit "placeholder")))))),
     "hardcoded_placeholder"),
    (.cat (lit "throw") (.cat (rplus wsR) (.cat (.star dotR) (.cat (lit "Error")
      (.cat (.star dotR) (lit "not implemented"))))),
     "not_implemented_error"),
    (.cat (lit "return") (.cat (rplus wsR) (.cat (lit "\"")
      (.cat (.alt (lit "Contemporary") (.alt (lit "Neutral") (lit "2010s"))) (lit "\"")))),
     "hardcoded_string"),
    (.cat (lit "//") (.cat (.star wsR)
      (.cat (.alt (lit "TODO") (.alt (lit "FIXME") (lit "HACK"))) (lit ":"))),
     "todo_comment"),
    (.alt (lit "simplified") (.alt (lit "Simplified") (lit "SIMPLIFIED")),
     "simplified_implementation"),
    (lit "Math.random()", "random_data_generation") ]

/-- The `if 'node_modules' in root or '.git' in root or 'build' in root`
check that skips a directory during the walk. -/
def skipRoot (root : String) : Bool :=
  containsStr root "node_modules" || containsStr root ".git" || containsStr root "build"

/-- The `file.endswith(('.cpp', '.h', '.js', '.ts'))` check. -/
def qualifiesExt (fname : String) : Bool :=
  pyEndsWith fname ".cpp" || pyEndsWith fname ".h" || pyEndsWith fname ".js" || pyEndsWith fname ".ts"

/-- The inner pattern loop of `find_violations`: all violations
contributed by one line (0-based index `i`, reported 1-based). -/
def scanLine (filepath : String) (i : Nat) (line : String) : List Violation :=
  patterns.filterMap fun pt =>
    if search pt.1 line then some ⟨filepath, i + 1, pt.2, pyStrip line⟩ else none

/-- The `for i, line in enumerate(lines)` loop of `find_violations`. -/
def scanFileAux (filepath : String) (i : Nat) : List String → List Violation
  | [] => []
  | line :: rest => scanLine filepath i line ++ scanFileAux filepath (i + 1) rest

/-- All violations of one file. -/
def scanFile (filepath : String) (lines : List String) : List Violation :=
  scanFileAux filepath 0 lines

/-- `find_violations`: walk the tree in order, skip excluded roots,
scan each qualifying file; an unreadable qualifying file raises,
aborting the whole scan (modelled by `.error`). -/
def find_violations : List Entry → Except String (List Violation)
  | [] => .ok []
  | e :: rest =>
      if skipRoot e.root then find_violations rest
      else if qualifiesExt e.fname then
        match e.content with
        | none => .error (e.root ++ "/" ++ e.fname)
        | some content =>
            match find_violations rest with
            | .error m => .error m
            | .ok vs => .ok (scanFile (e.root ++ "/" ++ e.fname) (pyReadlines content) ++ vs)
      else find_violations rest

/-! ### The context extractor (`analyze_code_context`, `extract_function_name`) -/

/-- The first declaration pattern of `extract_function_name`:
a class-method-style declaration. -/
def patMethodDecl : Regex :=
  .cat (.star wsR) (.cat (rplus wordR) (.cat (rplus wsR) (.cat (rplus wordR)
    (.cat (lit "::") (.cat (rplus wordR) (.cat (.star wsR) (lit "(")))))))

/-- The second declaration pattern: a plain function declaration. -/
def patFunctionDecl : Regex :=
  .cat (.star wsR) (.cat (lit "function") (.cat (rplus wsR)
    (.cat (rplus wordR) (.cat (.star wsR) (lit "(")))))

/-- The third declaration pattern: an asynchronous function declaration. -/
def patAsyncDecl : Regex :=
  .cat (.star wsR) (.cat (lit "async") (.cat (rplus wsR) (.cat (lit "function")
    (.cat (rplus wsR) (.cat (rplus wordR) (.cat (.star wsR) (lit "(")))))))

/-- Does a line match one of the three declaration patterns
(`re.match`, i.e. anchored at the start of the line)? -/
def declMatch (line : String) : Bool :=
  pymatch patMethodDecl line || pymatch patFunctionDecl line || pymatch patAsyncDecl line

/-- The `for i in range(line_num - 1, max(0, line_num - 50), -1)` loop of
`extract_function_name`: `i` is the current 0-based index, the second
argument the number of remaining iterations. -/
def efnGo (lines : List String) : Nat → Nat → String
  | _, 0 => "Unknown function"
  | i, fuel + 1 =>
      if declMatch (lines.getD i "") then pyStrip (lines.getD i "")
      else efnGo lines (i - 1) fuel

/-- `extract_function_name(lines, line_num)`: scan backward from index
`line_num - 1` for the first declaration-like line, stopping strictly
before index `max(0, line_num - 50)`; all index arithmetic is the
Python `range` computation, with truncated `Nat` subtraction standing
for Python `max(0, ...)`. -/
def extract_function_name (lines : List String) (line_num : Nat) : String :=
  efnGo lines (line_num - 1) ((line_num - 1) - (line_num - 50))

/-- `analyze_code_context(filepath, line_num)`: read the file, slice the
window `lines[max(0, line_num-20) : min(len(lines), line_num+20)]` and
build the context record; `none` models the IndexError raised by
`lines[line_num - 1]` when the line number is out of range (and a
failed file read). -/
def analyze_code_context (fs : FS) (filepath : String) (line_num : Nat) : Option Context :=
  match fs filepath with
  | none => none
  | some fileContent =>
      let lines := pyReadlines fileContent
      let start := line_num - 20
      let stop := min lines.length (line_num + 20)
      if h : line_num - 1 < lines.length then
        some ⟨filepath, line_num,
              String.join ((lines.drop start).take (stop - start)),
              extract_function_name lines line_num,
              pyStrip (lines.get ⟨line_num - 1, h⟩)⟩
      else none

/-! ### The fix recorder (`apply_fix`) -/

/-- `apply_fix(filepath, line_num, new_implementation)`: re-read the file,
append a record of the would-be fix to `self.fixes`, and return.  The
filesystem is threaded through unchanged because the method only reads;
`none` models the exceptions the method can raise (unreadable file,
`content.split('\n')[line_num - 1]` out of range). -/
def apply_fix (fs : FS) (fixes : List Fix) (filepath : String) (line_num : Nat)
    (new_implementation : String) : Option (List Fix × FS) :=
  match fs filepath with
  | none => none
  | some fileContent =>
      let parts := pySplitNL fileContent
      if h : line_num - 1 < parts.length then
        some (fixes ++ [⟨filepath, line_num, parts.get ⟨line_num - 1, h⟩, new_implementation⟩], fs)
      else none

/-! ### The report builder (`generate_pr_description`) and report dict -/

/-- Distinct file names in first-occurrence order: the Python `dict`
key order of the `fixes_by_file` grouping; its length is also the
`len(set(f['file'] for f in fixes))` count. -/
def filesInOrder (fixes : List Fix) : List String :=
  fixes.foldl (fun acc f => if acc.contains f.file then acc else acc ++ [f.file]) []

/-- The per-file section of the PR description. -/
def fileSection (fixes : List Fix) (filepath : String) : String :=
  "### `" ++ filepath ++ "`\n\n"
    ++ String.join ((fixes.filter (fun f => f.file == filepath)).map
        (fun f => "- Line " ++ toString f.line ++ ": Replaced placeholder with real implementation\n"))
    ++ "\n"

/-- `generate_pr_description()`: the narrative document, with the counts
interpolated and the fixes grouped by file in insertion order. -/
def generate_pr_description (violations : List Violation) (fixes : List Fix) : String :=
  "# 🤖 AI-Powered Mock Code Fixes\n\nThis PR was automatically generated using AI to replace placeholder implementations with real code.\n\n## 📊 Summary\n- **Violations Found**: "
    ++ toString violations.length
    ++ "\n- **Fixes Applied**: " ++ toString fixes.length
    ++ "\n- **Files Modified**: " ++ toString (filesInOrder fixes).length
    ++ "\n\n## 🔧 Changes Made\n\n"
    ++ String.join ((filesInOrder fixes).map (fileSection fixes))
    ++ "\n## ⚠️ Review Required\n\nPlease carefully review all changes before merging:\n1. Verify the AI-generated implementations are correct\n2. Run all tests to ensure nothing is broken\n3. Check that the new code follows project standards\n\n## 🤖 Generated by AI\n\nThis code was generated by Claude AI based on the surrounding context and music analysis best practices.\n"

/-- The report dict written to `ai_fix_report.json`. -/
def mkReport (violations : List Violation) (fixes : List Fix) : Report :=
  ⟨violations.length, fixes.length, violations, fixes⟩

/-- The 0-based indices examined by `extract_function_name`, in scan
order: `line_num - 1` down to, but excluding, `max(0, line_num - 50)`
(the Python `range(line_num - 1, max(0, line_num - 50), -1)`). -/
def idxList (line_num : Nat) : List Nat :=
  (List.range' ((line_num - 50) + 1) ((line_num - 1) - (line_num - 50))).reverse

/-- The context window as the spec's sentence describes it: exactly the
20 lines before and the 20 lines after the 1-based target line, clipped
to the file's bounds.  Written from the spec's words, only to be
compared against the window `analyze_code_context` actually slices. -/
def specContextWindow (lines : List String) (line_num : Nat) : String :=
  String.join ((lines.drop (line_num - 1 - 20)).take
    (min lines.length (line_num - 1 + 21) - (line_num - 1 - 20)))

/-! ### The orchestrating `main` -/

/-- The `max_fixes = 5` processing cap of `main`. -/
def max_fixes : Nat := 5

/-- One external text-generation call (`generate_fix_with_ai`): given the
context, either the raw response text or the exception it raises. -/
def Oracle : Type := Context → Except String String

/-- The `try`/`except` block of `main`'s loop: generate a fix and apply
it; any exception from the generation call or from `apply_fix` is
caught, so the fixes list is left unchanged for that violation. -/
def tryFixStep (fs : FS) (oracle : Oracle) (v : Violation) (ctx : Context)
    (fixes : List Fix) : List Fix :=
  match oracle ctx with
  | .error _ => fixes
  | .ok txt =>
      match apply_fix fs fixes v.file v.line txt with
      | none => fixes
      | some (fixes2, _) => fixes2

/-- The per-violation loop body of `main`, over the capped list:
context extraction happens outside the `try`, so its failure aborts the
run (`.error`); a failure of the generation call or of `apply_fix` is
caught, logged and skipped.  Returns the final fixes list and the
number of loop iterations (processing attempts). -/
def processViolations (fs : FS) (oracle : Oracle) :
    List Violation → List Fix → Except String (List Fix × Nat)
  | [], fixes => .ok (fixes, 0)
  | v :: rest, fixes =>
      match analyze_code_context fs v.file v.line with
      | none => .error v.file
      | some ctx =>
          match processViolations fs oracle rest (tryFixStep fs oracle v ctx fixes) with
          | .error m => .error m
          | .ok (finalFixes, k) => .ok (finalFixes, k + 1)

/-- The `for i, violation in enumerate(violations[:max_fixes])` loop. -/
def runFixes (fs : FS) (oracle : Oracle) (violations : List Violation) :
    Except String (List Fix × Nat) :=
  processViolations fs oracle (violations.take max_fixes) []

/-- Python truthiness of `os.getenv(...)`: `None` and the empty string
are falsy. -/
def truthy : Option String → Bool
  | none => false
  | some s => !(s == "")

/-- The observable outcome of one run of the script. -/
inductive RunOutcome where
  /-- `sys.exit(code)` was called. -/
  | exited (code : Nat)
  /-- An uncaught exception aborted the run; no report was written. -/
  | crashed (msg : String)
  /-- Normal completion (exit code 0): the machine-readable report and
  the PR description are the two files written. -/
  | completed (report : Report) (pr_description : String)
  deriving Repr, DecidableEq

/-- `main()`: check the credential, scan, process the capped prefix of
the violations, and write the two reports. -/
def mainRun (env : String → Option String) (fs : FS) (walk : List Entry)
    (oracle : Oracle) : RunOutcome :=
  if truthy (env "ANTHROPIC_API_KEY") then
    match find_violations walk with
    | .error m => .crashed m
    | .ok violations =>
        match runFixes fs oracle violations with
        | .error m => .crashed m
        | .ok (fixes, _) =>
            .completed (mkReport violations fixes) (generate_pr_description violations fixes)
  else .exited 1

/-! ## Helper lemmas -/

/-- Decompose a `drop`/`take` slice around an interior index `t`. -/
theorem slice_decomp {α : Type _} (l : List α) (d : α) (s t e : Nat)
    (hs : s ≤ t) (ht : t < l.length) (hte : t < e) (he : e ≤ l.length) :
    (l.drop s).take (e - s) =
      (l.drop s).take (t - s) ++ l.getD t d :: (l.drop (t + 1)).take (e - t - 1) := by
  have h1 : e - s = (t - s) + (e - t) := by omega
  rw [h1, List.take_add]
  congr 1
  rw [List.drop_drop]
  have h2 : s + (t - s) = t := by omega
  rw [h2, List.drop_eq_getElem_cons ht]
  have h3 : e - t = (e - t - 1) + 1 := by omega
  rw [h3, List.take_succ_cons, List.getD_eq_getElem l d ht]
  congr 2

/-- `find?` only depends on the predicate's values on the list. -/
theorem findCongrAux {α : Type _} {p q : α → Bool} :
    ∀ l : List α, (∀ x ∈ l, p x = q x) → l.find? p = l.find? q
  | [], _ => rfl
  | x :: xs, h => by
      rw [List.find?_cons, List.find?_cons, h x (List.mem_cons_self x xs),
        findCongrAux xs (fun y hy => h y (List.mem_cons_of_mem x hy))]

/-- The backward scan of `extract_function_name` is a `find?` over the
descending index list `[i, i-1, ..., i+1-fuel]`. -/
theorem efnGo_eq_find (lines : List String) :
    ∀ fuel i, fuel ≤ i + 1 →
      efnGo lines i fuel =
        match (List.range' (i + 1 - fuel) fuel).reverse.find?
            (fun j => declMatch (lines.getD j "")) with
        | some j => pyStrip (lines.getD j "")
        | none => "Unknown function" := by
  intro fuel
  induction fuel with
  | zero => intro i _; rfl
  | succ fuel ih =>
      intro i hfi
      have hfle : fuel ≤ i := by omega
      have hrange : List.range' (i + 1 - (fuel + 1)) (fuel + 1) =
          List.range' (i - fuel) fuel ++ [i] := by
        have h1 : i + 1 - (fuel + 1) = i - fuel := by omega
        have h2 : i - fuel + 1 * fuel = i := by omega
        rw [h1, List.range'_concat, h2]
      rw [hrange, List.reverse_append, List.reverse_singleton, List.singleton_append,
        List.find?_cons]
      cases hd : declMatch (lines.getD i "") with
      | true => simp only [efnGo, hd, if_pos]
      | false =>
          have hstep : efnGo lines i (fuel + 1) = efnGo lines (i - 1) fuel := by
            simp only [efnGo, hd, Bool.false_eq_true, if_false]
          rw [hstep, ih (i - 1) (by omega)]
          rcases Nat.eq_zero_or_pos i with hi | hi
          · subst hi
            have hf0 : fuel = 0 := by omega
            subst hf0
            rfl
          · rw [show i - 1 + 1 - fuel = i - fuel from by omega]

/-- `extract_function_name` characterised as the first match of the
three declaration patterns over the examined index list. -/
theorem extract_function_name_char (lines : List String) (line_num : Nat) :
    extract_function_name lines line_num =
      match (idxList line_num).find? (fun j => declMatch (lines.getD j "")) with
      | some j => pyStrip (lines.getD j "")
      | none => "Unknown function" := by
  rw [extract_function_name,
    efnGo_eq_find lines ((line_num - 1) - (line_num - 50)) (line_num - 1) (by omega),
    idxList, show line_num - 1 + 1 - (line_num - 1 - (line_num - 50)) = line_num - 50 + 1
      from by omega]

/-- Every index the backward scan examines is at least 1 and lies
strictly between `line_num - 50` and `line_num`. -/
theorem idxList_bounds (line_num : Nat) :
    ∀ i ∈ idxList line_num, 1 ≤ i ∧ line_num - 50 < i ∧ i ≤ line_num - 1 := by
  intro i hi
  rw [idxList, List.mem_reverse, List.mem_range'] at hi
  obtain ⟨k, hk, rfl⟩ := hi
  omega

/-- `analyze_code_context` on a readable file and an in-range line
number, fully reduced. -/
theorem analyze_code_context_eq (fs : FS) (fp fileContent : String) (line_num : Nat)
    (hread : fs fp = some fileContent)
    (hidx : line_num - 1 < (pyReadlines fileContent).length) :
    analyze_code_context fs fp line_num = some
      ⟨fp, line_num,
        String.join (((pyReadlines fileContent).drop (line_num - 20)).take
          (min (pyReadlines fileContent).length (line_num + 20) - (line_num - 20))),
        extract_function_name (pyReadlines fileContent) line_num,
        pyStrip ((pyReadlines fileContent).get ⟨line_num - 1, hidx⟩)⟩ := by
  unfold analyze_code_context
  rw [hread]
  exact dif_pos hidx

/-! ## The claims -/

/-- C1 (counterexample data): one distinguishable first line followed by
21 identical ones. -/
def wC1content : String := String.join ("AAA\n" :: List.replicate 21 "B\n")

/-- C1 (counterexample data): a filesystem holding only that file. -/
def wC1fs : FS := fun p => if p == "f.cpp" then some wC1content else none

/-- C1 counterexample: for a 22-line file and target line 21, the window
`analyze_code_context` slices starts at the file's second line (19 lines
before the target), not at the first line as the spec's "20 lines
before" window would; the two windows differ. -/
theorem c1_counterexample :
    (analyze_code_context wC1fs "f.cpp" 21).isSome = true ∧
    (analyze_code_context wC1fs "f.cpp" 21).map Context.context ≠
      some (specContextWindow (pyReadlines wC1content) 21) := by
  exact ⟨by rfl, by decide⟩

/-- C1 (amended): for every file and valid 1-based target line, the
context window is the slice `lines[line_num-20 : min(len, line_num+20)]`:
it contains exactly `min(19, line_num - 1)` lines before the target line
and `min(20, len - line_num)` lines after it, clipped to the file's
bounds. -/
theorem c1_amended (fs : FS) (fp fileContent : String) (line_num : Nat)
    (hread : fs fp = some fileContent)
    (h1 : 1 ≤ line_num) (h2 : line_num ≤ (pyReadlines fileContent).length) :
    ∃ c before after,
      analyze_code_context fs fp line_num = some c ∧
      ((pyReadlines fileContent).drop (line_num - 20)).take
          (min (pyReadlines fileContent).length (line_num + 20) - (line_num - 20))
        = before ++ (pyReadlines fileContent).getD (line_num - 1) "" :: after ∧
      c.context = String.join
        (before ++ (pyReadlines fileContent).getD (line_num - 1) "" :: after) ∧
      before.length = min 19 (line_num - 1) ∧
      after.length = min 20 ((pyReadlines fileContent).length - line_num) := by
  have hidx : line_num - 1 < (pyReadlines fileContent).length := by omega
  have key := slice_decomp (pyReadlines fileContent) "" (line_num - 20) (line_num - 1)
    (min (pyReadlines fileContent).length (line_num + 20)) (by omega) hidx (by omega)
    (Nat.min_le_left _ _)
  rw [show line_num - 1 + 1 = line_num from by omega] at key
  refine ⟨_,
    ((pyReadlines fileContent).drop (line_num - 20)).take (line_num - 1 - (line_num - 20)),
    ((pyReadlines fileContent).drop line_num).take
      (min (pyReadlines fileContent).length (line_num + 20) - (line_num - 1) - 1),
    analyze_code_context_eq fs fp fileContent line_num hread hidx, key, ?_, ?_, ?_⟩
  · exact congrArg String.join key
  · rw [List.length_take, List.length_drop]
    omega
  · rw [List.length_take, List.length_drop]
    omega

/-- C1 witness data: a three-line file. -/
def wC1fsSmall : FS := fun p => if p == "w.cpp" then some "a\nb\nc\n" else none

/-- C1 witness: the amended window property at a concrete three-line
file with target line 2 (1 line before, 1 after). -/
theorem c1_amended_witness :
    wC1fsSmall "w.cpp" = some "a\nb\nc\n" ∧ 1 ≤ 2 ∧ 2 ≤ (pyReadlines "a\nb\nc\n").length ∧
    ∃ c before after,
      analyze_code_context wC1fsSmall "w.cpp" 2 = some c ∧
      ((pyReadlines "a\nb\nc\n").drop (2 - 20)).take
          (min (pyReadlines "a\nb\nc\n").length (2 + 20) - (2 - 20))
        = before ++ (pyReadlines "a\nb\nc\n").getD (2 - 1) "" :: after ∧
      c.context = String.join
        (before ++ (pyReadlines "a\nb\nc\n").getD (2 - 1) "" :: after) ∧
      before.length = min 19 (2 - 1) ∧
      after.length = min 20 ((pyReadlines "a\nb\nc\n").length - 2) :=
  ⟨rfl, by omega, by decide,
    c1_amended wC1fsSmall "w.cpp" "a\nb\nc\n" 2 rfl (by omega) (by decide)⟩

/-- C9: for a target line with fewer than 20 lines before it, the
window starts at the file's first line — the slice is a `take` of the
whole line list, its bounds clamped to the file (no out-of-bounds
access, no padding: its length never exceeds the file's). -/
theorem c9 (fs : FS) (fp fileContent : String) (line_num : Nat)
    (hread : fs fp = some fileContent)
    (h1 : 1 ≤ line_num) (h2 : line_num ≤ (pyReadlines fileContent).length)
    (h3 : line_num - 1 < 20) :
    ∃ c, analyze_code_context fs fp line_num = some c ∧
      c.context = String.join ((pyReadlines fileContent).take
        (min (pyReadlines fileContent).length (line_num + 20))) ∧
      ((pyReadlines fileContent).take
        (min (pyReadlines fileContent).length (line_num + 20))).length
        ≤ (pyReadlines fileContent).length := by
  have hidx : line_num - 1 < (pyReadlines fileContent).length := by omega
  have h0 : line_num - 20 = 0 := by omega
  refine ⟨_, analyze_code_context_eq fs fp fileContent line_num hread hidx, ?_, ?_⟩
  · rw [h0, List.drop_zero, Nat.sub_zero]
  · rw [List.length_take]
    omega

/-- C9 witness data: a two-line file. -/
def wC9fs : FS := fun p => if p == "s.cpp" then some "p\nq\n" else none

/-- C9 witness: the window for target line 1 of a two-line file is the
whole file, starting at its first line. -/
theorem c9_witness :
    wC9fs "s.cpp" = some "p\nq\n" ∧ 1 ≤ 1 ∧ 1 ≤ (pyReadlines "p\nq\n").length ∧ 1 - 1 < 20 ∧
    ∃ c, analyze_code_context wC9fs "s.cpp" 1 = some c ∧
      c.context = String.join ((pyReadlines "p\nq\n").take
        (min (pyReadlines "p\nq\n").length (1 + 20))) ∧
      ((pyReadlines "p\nq\n").take
        (min (pyReadlines "p\nq\n").length (1 + 20))).length
        ≤ (pyReadlines "p\nq\n").length :=
  ⟨rfl, by omega, by decide, by omega,
    c9 wC9fs "s.cpp" "p\nq\n" 1 rfl (by omega) (by decide) (by omega)⟩

/-- C2 counterexample: the backward scan begins at the target line
itself, not at the line above it.  Here the only line above the target
matches no declaration pattern, so the claim requires the result
"Unknown function"; the code instead returns the target line's own
declaration, stripped. -/
theorem c2_counterexample :
    extract_function_name ["x\n", "function foo()\n"] 2 = "function foo()" ∧
    declMatch "x\n" = false ∧
    ("function foo()" : String) ≠ "Unknown function" :=
  ⟨by rfl, by rfl, by decide⟩

/-- C2 (amended): for every file and in-range target line number, the
backward scan examines indices `line_num - 1` (the target line itself)
down to, but excluding, `max(0, line_num - 50)` — at most the 48 lines
above the target; it returns the first examined line matching one of
the three declaration patterns, stripped, and exactly the string
"Unknown function" when none matches. -/
theorem c2_amended (lines : List String) (line_num : Nat)
    (h : line_num ≤ lines.length) :
    extract_function_name lines line_num =
      match (idxList line_num).find? (fun j => declMatch (lines.getD j "")) with
      | some j => pyStrip (lines.getD j "")
      | none => "Unknown function" :=
  extract_function_name_char lines line_num

/-- C2 witness: on a three-line file with no declarations, targeting
line 3, the scan finds nothing and yields "Unknown function". -/
theorem c2_amended_witness :
    3 ≤ (["a\n", "b\n", "c\n"] : List String).length ∧
    extract_function_name ["a\n", "b\n", "c\n"] 3 =
      match (idxList 3).find?
          (fun j => declMatch ((["a\n", "b\n", "c\n"] : List String).getD j "")) with
      | some j => pyStrip ((["a\n", "b\n", "c\n"] : List String).getD j "")
      | none => "Unknown function" :=
  ⟨by decide, c2_amended ["a\n", "b\n", "c\n"] 3 (by decide)⟩

/-- C10: the backward scan of `extract_function_name` never examines
the file's first line (index 0): every examined index is at least 1 and
lies in `(line_num - 50, line_num - 1]`, so the result is unchanged by
any replacement of the first line — a declaration there is never
returned. -/
theorem c10 (line_num : Nat) (a b : String) (rest : List String) :
    (∀ i ∈ idxList line_num, 1 ≤ i ∧ line_num - 50 < i ∧ i ≤ line_num - 1) ∧
    extract_function_name (a :: rest) line_num =
      extract_function_name (b :: rest) line_num := by
  refine ⟨idxList_bounds line_num, ?_⟩
  rw [extract_function_name_char, extract_function_name_char]
  have hfind : (idxList line_num).find? (fun j => declMatch ((a :: rest).getD j ""))
      = (idxList line_num).find? (fun j => declMatch ((b :: rest).getD j "")) := by
    apply findCongrAux
    intro j hj
    obtain ⟨j', rfl⟩ : ∃ j', j = j' + 1 :=
      ⟨j - 1, by have := (idxList_bounds line_num j hj).1; omega⟩
    rw [List.getD_cons_succ, List.getD_cons_succ]
  rw [hfind]
  cases hf : (idxList line_num).find? (fun j => declMatch ((b :: rest).getD j "")) with
  | none => rfl
  | some j =>
      obtain ⟨j', rfl⟩ : ∃ j', j = j' + 1 :=
        ⟨j - 1, by
          have := (idxList_bounds line_num j (List.mem_of_find?_eq_some hf)).1
          omega⟩
      show pyStrip ((a :: rest).getD (j' + 1) "") = pyStrip ((b :: rest).getD (j' + 1) "")
      rw [List.getD_cons_succ, List.getD_cons_succ]

/-- C10 witness: a declaration on the file's first line is invisible to
the scan — replacing it with a non-declaration leaves the result
unchanged. -/
theorem c10_witness :
    extract_function_name ["function a(\n", "y\n"] 2 =
      extract_function_name ["zzz\n", "y\n"] 2 :=
  (c10 2 "function a(\n" "zzz\n" ["y\n"]).2

/-- Unfolding of the per-violation loop on a nonempty list. -/
theorem processViolations_cons (fs : FS) (oracle : Oracle) (v : Violation)
    (rest : List Violation) (st : List Fix) :
    processViolations fs oracle (v :: rest) st =
      match analyze_code_context fs v.file v.line with
      | none => .error v.file
      | some ctx =>
          match processViolations fs oracle rest (tryFixStep fs oracle v ctx st) with
          | .error m => .error m
          | .ok (finalFixes, k) => .ok (finalFixes, k + 1) := rfl

/-- What a successful `apply_fix` produces: the filesystem unchanged and
exactly one record appended. -/
theorem apply_fix_spec (fs : FS) (fixes : List Fix) (fp : String) (line_num : Nat)
    (txt : String) (fixes' : List Fix) (fs' : FS)
    (h : apply_fix fs fixes fp line_num txt = some (fixes', fs')) :
    fs' = fs ∧ ∃ fileContent, fs fp = some fileContent ∧
      fixes' = fixes ++
        [⟨fp, line_num, (pySplitNL fileContent).getD (line_num - 1) "", txt⟩] := by
  unfold apply_fix at h
  split at h
  · exact absurd h (by simp)
  · rename_i fileContent heq
    have h' : (if hidx : line_num - 1 < (pySplitNL fileContent).length then
        some (fixes ++ [⟨fp, line_num,
          (pySplitNL fileContent).get ⟨line_num - 1, hidx⟩, txt⟩], fs)
      else none) = some (fixes', fs') := h
    split at h'
    · rename_i hidx
      injection h' with h'
      injection h' with h1 h2
      subst h1
      subst h2
      refine ⟨rfl, fileContent, heq, ?_⟩
      rw [List.getD_eq_getElem _ "" hidx]
      rfl
    · exact absurd h' (by simp)

/-- The caught `try` block leaves the fixes list unchanged or appends
exactly one record pointing at the processed violation. -/
theorem tryFixStep_spec (fs : FS) (oracle : Oracle) (v : Violation) (ctx : Context)
    (fixes : List Fix) :
    tryFixStep fs oracle v ctx fixes = fixes ∨
    ∃ fx : Fix, tryFixStep fs oracle v ctx fixes = fixes ++ [fx] ∧
      fx.file = v.file ∧ fx.line = v.line := by
  unfold tryFixStep
  cases horc : oracle ctx with
  | error e => exact Or.inl rfl
  | ok txt =>
      show (match apply_fix fs fixes v.file v.line txt with
          | none => fixes
          | some (fixes2, _) => fixes2) = fixes ∨
        ∃ fx : Fix, (match apply_fix fs fixes v.file v.line txt with
          | none => fixes
          | some (fixes2, _) => fixes2) = fixes ++ [fx] ∧
          fx.file = v.file ∧ fx.line = v.line
      cases happ : apply_fix fs fixes v.file v.line txt with
      | none => exact Or.inl rfl
      | some q =>
          obtain ⟨fixes2, fs2⟩ := q
          obtain ⟨-, fileContent, -, hfix⟩ :=
            apply_fix_spec fs fixes v.file v.line txt fixes2 fs2 happ
          exact Or.inr ⟨⟨v.file, v.line,
            (pySplitNL fileContent).getD (v.line - 1) "", txt⟩, hfix, rfl, rfl⟩

/-- The loop of `main` over a violation list: the attempt count is the
list's length, and the final fixes list extends the initial one by at
most one record per violation, each pointing at a processed
violation's file and line. -/
theorem processViolations_spec (fs : FS) (oracle : Oracle) :
    ∀ (l : List Violation) (st finalFixes : List Fix) (k : Nat),
      processViolations fs oracle l st = .ok (finalFixes, k) →
      k = l.length ∧ ∃ suffix, finalFixes = st ++ suffix ∧ suffix.length ≤ l.length ∧
        ∀ f ∈ suffix, ∃ v ∈ l, f.file = v.file ∧ f.line = v.line := by
  intro l
  induction l with
  | nil =>
      intro st finalFixes k h
      injection h with h
      injection h with h1 h2
      subst h1
      subst h2
      exact ⟨rfl, [], by simp, by simp, by simp⟩
  | cons v rest ih =>
      intro st finalFixes k h
      rw [processViolations_cons] at h
      split at h
      · exact absurd h (by simp)
      · rename_i ctx hctx
        split at h
        · exact absurd h (by simp)
        · rename_i stf k' hrec
          injection h with h
          injection h with h1 h2
          subst h1
          subst h2
          obtain ⟨hk, suffix, hsf, hlen, hmem⟩ := ih _ stf k' hrec
          rcases tryFixStep_spec fs oracle v ctx st with hst' | ⟨fx, hst', hfxf, hfxl⟩
          · rw [hst'] at hsf
            refine ⟨by simp [hk], suffix, hsf, by simp; omega, ?_⟩
            intro f hf
            obtain ⟨w, hw, hwf⟩ := hmem f hf
            exact ⟨w, List.mem_cons_of_mem v hw, hwf⟩
          · rw [hst'] at hsf
            refine ⟨by simp [hk], fx :: suffix, by rw [hsf, List.append_assoc]; rfl,
              by simp; omega, ?_⟩
            intro f hf
            rcases List.mem_cons.mp hf with rfl | hf'
            · exact ⟨v, List.mem_cons_self v rest, hfxf, hfxl⟩
            · obtain ⟨w, hw, hwf⟩ := hmem f hf'
              exact ⟨w, List.mem_cons_of_mem v hw, hwf⟩

/-- Scanning a concatenation of line lists: the second part is scanned
with line indices offset by the first part's length. -/
theorem scanFileAux_append (fp : String) (l2 : List String) :
    ∀ (l1 : List String) (i : Nat),
      scanFileAux fp i (l1 ++ l2) = scanFileAux fp i l1 ++ scanFileAux fp (i + l1.length) l2 := by
  intro l1
  induction l1 with
  | nil => intro i; simp [scanFileAux]
  | cons x xs ih =>
      intro i
      rw [List.cons_append, scanFileAux, scanFileAux, ih (i + 1), List.append_assoc]
      rw [List.length_cons, show i + 1 + xs.length = i + (xs.length + 1) from by omega]

/-- C3: when the scan finds more violations than the `max_fixes = 5`
processing cap, a completed fix loop performs exactly `max_fixes`
(= min(cap, total)) processing attempts; the report's
`violations_found` is the full scan total while `fixes_applied` counts
only the recorded fixes, each of which comes from one of the first
`max_fixes` violations. -/
theorem c3 (fs : FS) (oracle : Oracle) (violations : List Violation)
    (fixes : List Fix) (attempts : Nat)
    (hcap : max_fixes < violations.length)
    (hrun : runFixes fs oracle violations = .ok (fixes, attempts)) :
    attempts = max_fixes ∧
    (mkReport violations fixes).violations_found = violations.length ∧
    (mkReport violations fixes).fixes_applied = fixes.length ∧
    fixes.length ≤ max_fixes ∧
    ∀ f ∈ fixes, ∃ v ∈ violations.take max_fixes, f.file = v.file ∧ f.line = v.line := by
  obtain ⟨hk, suffix, hsf, hlen, hmem⟩ :=
    processViolations_spec fs oracle (violations.take max_fixes) [] fixes attempts hrun
  have htk : (violations.take max_fixes).length = max_fixes := by
    rw [List.length_take]
    omega
  rw [List.nil_append] at hsf
  subst hsf
  exact ⟨by omega, rfl, rfl, by omega, hmem⟩

/-- C3 witness data: a one-line readable file. -/
def wFs3 : FS := fun p => if p == "app/a.cpp" then some "return 1;\n" else none

/-- C3 witness data: an always-successful generation call. -/
def wOracle3 : Oracle := fun _ => .ok "impl"

/-- C3 witness data: one violation record. -/
def wV3 : Violation := ⟨"app/a.cpp", 1, "todo_comment", "return 1;"⟩

/-- C3 witness data: six violations — one more than the cap. -/
def wVs3 : List Violation := [wV3, wV3, wV3, wV3, wV3, wV3]

/-- C3 witness data: the fix each processed violation records. -/
def wFix3 : Fix := ⟨"app/a.cpp", 1, "return 1;", "impl"⟩

/-- C3 witness: six violations, cap five — the completed run makes
exactly five attempts and records five fixes, and the report counts
the full total of six. -/
theorem c3_witness :
    max_fixes < wVs3.length ∧
    (5 = max_fixes ∧
      (mkReport wVs3 [wFix3, wFix3, wFix3, wFix3, wFix3]).violations_found = wVs3.length ∧
      (mkReport wVs3 [wFix3, wFix3, wFix3, wFix3, wFix3]).fixes_applied =
        ([wFix3, wFix3, wFix3, wFix3, wFix3] : List Fix).length ∧
      ([wFix3, wFix3, wFix3, wFix3, wFix3] : List Fix).length ≤ max_fixes ∧
      ∀ f ∈ ([wFix3, wFix3, wFix3, wFix3, wFix3] : List Fix),
        ∃ v ∈ wVs3.take max_fixes, f.file = v.file ∧ f.line = v.line) :=
  ⟨by decide,
    c3 wFs3 wOracle3 wVs3 [wFix3, wFix3, wFix3, wFix3, wFix3] 5 (by decide) (by rfl)⟩

/-- C4: a successful `apply_fix` appends exactly one record — the file,
the line, the original line text and the generated text — to the fixes
list, and the filesystem it passes on is the one it was given: no file
is written. -/
theorem c4 (fs : FS) (fixes : List Fix) (fp : String) (line_num : Nat)
    (txt : String) (fixes' : List Fix) (fs' : FS)
    (h : apply_fix fs fixes fp line_num txt = some (fixes', fs')) :
    fs' = fs ∧ ∃ fileContent, fs fp = some fileContent ∧
      fixes' = fixes ++
        [⟨fp, line_num, (pySplitNL fileContent).getD (line_num - 1) "", txt⟩] :=
  apply_fix_spec fs fixes fp line_num txt fixes' fs' h

/-- C4 witness data: a two-line file. -/
def wFs4 : FS := fun p => if p == "f.cpp" then some "a\nb" else none

/-- C4 witness: recording a fix for line 1 of the file appends the
record with original line "a" and leaves the filesystem unchanged. -/
theorem c4_witness :
    wFs4 = wFs4 ∧ ∃ fileContent, wFs4 "f.cpp" = some fileContent ∧
      ([⟨"f.cpp", 1, "a", "X"⟩] : List Fix) = [] ++
        [⟨"f.cpp", 1, (pySplitNL fileContent).getD (1 - 1) "", "X"⟩] :=
  c4 wFs4 [] "f.cpp" 1 "X" [⟨"f.cpp", 1, "a", "X"⟩] wFs4 (by rfl)

/-- C5: when the generation call raises for a violation, that violation
is skipped — the fixes list is left exactly as it was — and the loop
continues with the remaining violations (the attempt count still
advances). -/
theorem c5 (fs : FS) (oracle : Oracle) (v : Violation) (rest : List Violation)
    (fixes : List Fix) (ctx : Context) (e : String)
    (hctx : analyze_code_context fs v.file v.line = some ctx)
    (herr : oracle ctx = .error e) :
    processViolations fs oracle (v :: rest) fixes =
      (processViolations fs oracle rest fixes).map (fun p => (p.1, p.2 + 1)) := by
  rw [processViolations_cons, hctx]
  show (match processViolations fs oracle rest (tryFixStep fs oracle v ctx fixes) with
    | Except.error m => (Except.error m : Except String (List Fix × Nat))
    | Except.ok (finalFixes, k) => Except.ok (finalFixes, k + 1)) = _
  have hstep : tryFixStep fs oracle v ctx fixes = fixes := by
    unfold tryFixStep
    rw [herr]
  rw [hstep]
  cases processViolations fs oracle rest fixes with
  | error m => rfl
  | ok p => rfl

/-- C5 witness data: a one-line readable file. -/
def wFs5 : FS := fun p => if p == "m.cpp" then some "line1\n" else none

/-- C5 witness data: a generation call that always raises. -/
def wOracle5 : Oracle := fun _ => .error "boom"

/-- C5 witness data: the violation being processed. -/
def wV5 : Violation := ⟨"m.cpp", 1, "todo_comment", "line1"⟩

/-- C5 witness data: the context extracted for that violation. -/
def wCtx5 : Context := ⟨"m.cpp", 1, "line1\n", "Unknown function", "line1"⟩

/-- C5 witness: a failing generation call leaves the fixes list
unchanged and the loop moves on. -/
theorem c5_witness :
    analyze_code_context wFs5 "m.cpp" 1 = some wCtx5 ∧
    wOracle5 wCtx5 = .error "boom" ∧
    processViolations wFs5 wOracle5 [wV5] [] =
      (processViolations wFs5 wOracle5 [] []).map (fun p => (p.1, p.2 + 1)) :=
  ⟨by rfl, by rfl, c5 wFs5 wOracle5 wV5 [] [] wCtx5 "boom" (by rfl) (by rfl)⟩

/-- C6: a qualifying file in the walk whose content cannot be read makes
`find_violations` raise — the whole scan returns an error with no
per-file isolation — and the run crashes with no report written. -/
theorem c6 (walk : List Entry) (e : Entry) (hmem : e ∈ walk)
    (hroot : skipRoot e.root = false) (hext : qualifiesExt e.fname = true)
    (hunread : e.content = none) :
    (∃ msg, find_violations walk = .error msg) ∧
    ∀ (env : String → Option String) (fs : FS) (oracle : Oracle),
      truthy (env "ANTHROPIC_API_KEY") = true →
      ∃ msg, mainRun env fs walk oracle = .crashed msg := by
  have herr : ∀ w : List Entry, e ∈ w → ∃ msg, find_violations w = .error msg := by
    intro w
    induction w with
    | nil => intro hw; cases hw
    | cons hd tl ih =>
        intro hw
        rcases List.mem_cons.mp hw with rfl | hw'
        · exact ⟨e.root ++ "/" ++ e.fname, by
            rw [find_violations, hroot, hext, hunread]
            rfl⟩
        · obtain ⟨msg, hmsg⟩ := ih hw'
          rw [find_violations]
          cases h1 : skipRoot hd.root with
          | true => exact ⟨msg, hmsg⟩
          | false =>
              cases h2 : qualifiesExt hd.fname with
              | false => exact ⟨msg, hmsg⟩
              | true =>
                  cases hc : hd.content with
                  | none => exact ⟨hd.root ++ "/" ++ hd.fname, rfl⟩
                  | some fileContent => exact ⟨msg, by rw [hmsg]; rfl⟩
  refine ⟨herr walk hmem, ?_⟩
  intro env fs oracle htr
  obtain ⟨msg, hmsg⟩ := herr walk hmem
  exact ⟨msg, by rw [mainRun, htr, if_pos rfl, hmsg]⟩

/-- C6 witness data: a walk with a single unreadable qualifying file. -/
def wWalk6 : List Entry := [⟨"app", "a.cpp", none⟩]

/-- C6 witness: the unreadable file aborts the scan and the run. -/
theorem c6_witness :
    (⟨"app", "a.cpp", none⟩ : Entry) ∈ wWalk6 ∧
    skipRoot "app" = false ∧ qualifiesExt "a.cpp" = true ∧
    ((∃ msg, find_violations wWalk6 = .error msg) ∧
      ∀ (env : String → Option String) (fs : FS) (oracle : Oracle),
        truthy (env "ANTHROPIC_API_KEY") = true →
        ∃ msg, mainRun env fs wWalk6 oracle = .crashed msg) :=
  ⟨List.mem_singleton.mpr rfl, by rfl, by rfl,
    c6 wWalk6 ⟨"app", "a.cpp", none⟩ (List.mem_singleton.mpr rfl) (by rfl) (by rfl) (by rfl)⟩

/-- C7 counterexample: with the credential present in the environment
but set to the empty string, the program still exits with code 1 —
the claim's "if it is present, the run proceeds" fails. -/
theorem c7_counterexample :
    ((fun _ => some "") : String → Option String) "ANTHROPIC_API_KEY" ≠ none ∧
    mainRun (fun _ => some "") (fun _ => none) [] (fun _ => .error "x") =
      .exited 1 :=
  ⟨by simp, by rfl⟩

/-- C7 (amended): if the credential is absent from the environment or
set to the empty string, the program exits with code 1 before doing any
work (the outcome does not depend on the filesystem, the tree or the
service); if it is present and nonempty, the run proceeds, and on
normal completion finishes with exit code 0, writing the two reports. -/
theorem c7_amended (env : String → Option String) (fs : FS) (walk : List Entry)
    (oracle : Oracle) :
    (truthy (env "ANTHROPIC_API_KEY") = false → mainRun env fs walk oracle = .exited 1) ∧
    (truthy (env "ANTHROPIC_API_KEY") = true →
      ∀ (violations : List Violation) (fixes : List Fix) (attempts : Nat),
        find_violations walk = .ok violations →
        runFixes fs oracle violations = .ok (fixes, attempts) →
        mainRun env fs walk oracle =
          .completed (mkReport violations fixes) (generate_pr_description violations fixes)) := by
  constructor
  · intro h
    rw [mainRun, h]
    rfl
  · intro h violations fixes attempts h1 h2
    rw [mainRun, h, if_pos rfl, h1]
    show (match runFixes fs oracle violations with
      | Except.error m => RunOutcome.crashed m
      | Except.ok (fixes, _) =>
          RunOutcome.completed (mkReport violations fixes)
            (generate_pr_description violations fixes)) = _
    rw [h2]

/-- C7 witness: with a nonempty credential and an empty tree the run
completes normally with the empty report. -/
theorem c7_amended_witness :
    truthy (((fun _ => some "key") : String → Option String) "ANTHROPIC_API_KEY") = true ∧
    mainRun (fun _ => some "key") (fun _ => none) [] (fun _ => .error "x") =
      .completed (mkReport [] []) (generate_pr_description [] []) :=
  ⟨by rfl,
    (c7_amended (fun _ => some "key") (fun _ => none) [] (fun _ => .error "x")).2
      (by rfl) [] [] 0 (by rfl) (by rfl)⟩

/-- C8: a line `return 0.5f; // placeholder` anywhere in a scanned file
yields a "hardcoded_placeholder" violation at its 1-based line number,
and a qualifying file whose only content is `return 0.5f;` (no
"placeholder" comment) yields no violation of any kind. -/
theorem c8 (pre post : List String) (fp : String) :
    (∃ v ∈ scanFile fp (pre ++ "return 0.5f; // placeholder\n" :: post),
        v.type = "hardcoded_placeholder" ∧ v.line = pre.length + 1 ∧ v.file = fp) ∧
    find_violations [⟨"app", "a.cpp", some "return 0.5f; // placeholder\n"⟩] =
      .ok [⟨"app/a.cpp", 1, "hardcoded_placeholder", "return 0.5f; // placeholder"⟩] ∧
    find_violations [⟨"app", "b.cpp", some "return 0.5f;\n"⟩] = .ok [] := by
  refine ⟨?_, by rfl, by rfl⟩
  have hline : ∀ n : Nat, scanLine fp n "return 0.5f; // placeholder\n" =
      [⟨fp, n + 1, "hardcoded_placeholder", "return 0.5f; // placeholder"⟩] :=
    fun n => rfl
  refine ⟨⟨fp, pre.length + 1, "hardcoded_placeholder", "return 0.5f; // placeholder"⟩,
    ?_, rfl, rfl, rfl⟩
  rw [scanFile, scanFileAux_append fp _ pre 0]
  apply List.mem_append_right
  rw [Nat.zero_add, scanFileAux, hline pre.length]
  exact List.mem_append_left _ (List.mem_singleton.mpr rfl)

end AIFix
